import Mathlib

/-!
Verification of the multi-store price scraper (FastAPI + Playwright + SQLModel).

The Python sources are shallowly embedded: strings are `List Char`, Python
`float` prices are `ℚ` (the parser only ever sees decimal digit/dot strings),
the SQLite tables are lists of rows, and the rendered page consulted by the
scrapers is a function from CSS selector to a query outcome.  Fallible Python
code (regex search, `urlparse`, `float`) is embedded as `Option`-returning
total functions.
-/

namespace Scraper

/-! ## Basic string helpers (Python `str` operations on `List Char`) -/

/-- `startsWithL pat s` is Python `s.startswith(pat)` (pattern first). -/
def startsWithL : List Char → List Char → Bool
  | [], _ => true
  | _ :: _, [] => false
  | p :: ps, c :: cs => p == c && startsWithL ps cs

/-- `containsL n h` is Python `n in h` (substring containment). -/
def containsL (n : List Char) : List Char → Bool
  | [] => n.isEmpty
  | c :: cs => startsWithL n (c :: cs) || containsL n cs

/-- Python `str.lower()` (ASCII fragment). -/
def toLowerStr (s : List Char) : List Char := s.map Char.toLower

/-- Python `str.strip()`: drop whitespace from both ends. -/
def pyStrip (s : List Char) : List Char :=
  (((s.dropWhile Char.isWhitespace).reverse).dropWhile Char.isWhitespace).reverse

/-- Python truthiness of an `Optional[str]`: `None` and `""` are falsy. -/
def truthy : Option (List Char) → Bool
  | none => false
  | some s => !s.isEmpty

/-- Python `a or b` for an `Optional[str]` falling back to a plain string. -/
def pyOrStr (a : Option (List Char)) (b : List Char) : List Char :=
  match a with
  | some s => if s.isEmpty then b else s
  | none => b

/-- Python `a or b` for two `Optional[str]` values. -/
def pyOr (a b : Option (List Char)) : Option (List Char) :=
  if truthy a then a else b

/-! ## `parse_price` (src/main.py lines 53-71)

`parse_price` removes every character that is not a digit or a dot and feeds
the result to Python `float`.  After that cleaning step the string consists of
digits and dots only; on such strings `float` succeeds iff there is at least
one digit and at most one dot, in which case it returns the decimal value.
The numeric result is embedded as `ℚ`. -/

/-- The cleaning predicate of `re.sub(r'[^\d.]', '', price_str)`:
characters kept by the substitution. -/
def keptByClean (c : Char) : Bool := c.isDigit || c == '.'

/-- Decimal value of a digit string. -/
def digitsVal (s : List Char) : Nat := s.foldl (fun a c => 10 * a + (c.toNat - 48)) 0

/-- Digits before the (first) dot. -/
def intPart (s : List Char) : List Char := s.takeWhile (fun c => !(c == '.'))

/-- Digits after the (first) dot. -/
def fracPart (s : List Char) : List Char := (s.dropWhile (fun c => !(c == '.'))).drop 1

/-- Python `float` on a string made only of digits and dots (the only shape
`parse_price` ever passes to it): defined iff the string has at least one
digit and at most one dot. -/
def floatOfCleaned (s : List Char) : Option ℚ :=
  if s.count '.' ≤ 1 ∧ s.any Char.isDigit then
    some ((digitsVal (intPart s) : ℚ) + (digitsVal (fracPart s) : ℚ) / (10 : ℚ) ^ (fracPart s).length)
  else none

/-- `parse_price` from src/main.py: `None`/empty input is falsy and yields
`None`; otherwise strip every non-digit/non-dot character and convert. -/
def parse_price : Option (List Char) → Option ℚ
  | none => none
  | some s =>
    if s.isEmpty then none
    else floatOfCleaned (s.filter keptByClean)

/-! ## `simplify_url` (src/main.py lines 74-104)

`re.search(r'/dp/([A-Z0-9]+)', url)` and `re.search(r'(ML[A-Z]-?\d+)', url)`
are embedded as leftmost-match scanners: the input is scanned left to right
and at the first position where the pattern matches, the (greedy) group is
returned. -/

/-- `[A-Z0-9]` character class. -/
def isUA (c : Char) : Bool := c.isUpper || c.isDigit

/-- Does `/dp/` followed by at least one `[A-Z0-9]` character match at the
head of `s`? -/
def matchesDp (s : List Char) : Bool :=
  startsWithL "/dp/".data s &&
    (match s.drop 4 with
     | c :: _ => isUA c
     | [] => false)

/-- Leftmost match of `/dp/([A-Z0-9]+)`: the captured group (the maximal
`[A-Z0-9]` run after the first matching `/dp/`). -/
def amazonId : List Char → Option (List Char)
  | [] => none
  | c :: rest =>
    if matchesDp (c :: rest) then some (((c :: rest).drop 4).takeWhile isUA)
    else amazonId rest

/-- Does `-?\d+` match at the head of `l` (with regex backtracking: a `-` is
only consumed when a digit follows)? -/
def mlTail (l : List Char) : Bool :=
  match l with
  | [] => false
  | a :: rest =>
    if a = '-' then
      match rest with
      | d :: _ => d.isDigit
      | [] => false
    else a.isDigit

/-- The greedy text consumed by `-?\d+` at the head of `l`. -/
def mlTakeTail (l : List Char) : List Char :=
  match l with
  | [] => []
  | a :: rest =>
    if a = '-' then
      match rest with
      | d :: ds => '-' :: d :: ds.takeWhile Char.isDigit
      | [] => []
    else a :: rest.takeWhile Char.isDigit

/-- Does `ML[A-Z]-?\d+` match at the head of `s`? -/
def matchesML (s : List Char) : Bool :=
  startsWithL "ML".data s &&
    (match s.drop 2 with
     | c :: tl => c.isUpper && mlTail tl
     | [] => false)

/-- The greedy text matched by `ML[A-Z]-?\d+` at the head of `s`
(meaningful only when `matchesML s`). -/
def mlTake (s : List Char) : List Char :=
  match s.drop 2 with
  | c :: tl => 'M' :: 'L' :: c :: mlTakeTail tl
  | [] => []

/-- Leftmost match of `(ML[A-Z]-?\d+)`. -/
def mlId : List Char → Option (List Char)
  | [] => none
  | c :: rest =>
    if matchesML (c :: rest) then some (mlTake (c :: rest))
    else mlId rest

/-- `simplify_url` from src/main.py: rebuild a canonical URL from the
store-specific product id, or return the URL unchanged when no pattern
matches. -/
def simplify_url (url : List Char) : List Char :=
  match amazonId url with
  | some pid => "https://www.amazon.com/dp/".data ++ pid
  | none =>
    match mlId url with
    | some pid =>
      let low := toLowerStr url
      if containsL "mercadolibre.com.mx".data low then
        "https://www.mercadolibre.com.mx/item/".data ++ pid
      else if containsL "mercadolibre.com.ar".data low then
        "https://www.mercadolibre.com.ar/item/".data ++ pid
      else if containsL "mercadolibre.com.co".data low then
        "https://www.mercadolibre.com.co/item/".data ++ pid
      else
        "https://www.mercadolibre.com/item/".data ++ pid
    | none => url

/-! ## Store dispatch (src/scrapers/scraper_factory.py)

`get_scraper_function` parses the URL authority with `urllib.parse.urlparse`
(embedded: strip a valid scheme, read the netloc after `//` up to `/?#`,
fail — `ValueError`, caught and turned into `None` by the factory — on
unbalanced square brackets), lowercases it, strips a leading `www.` and
dispatches on domain substrings. -/

/-- The store a URL is dispatched to. -/
inductive Store where
  | amazon
  | mercadolibre
deriving DecidableEq

/-- Characters allowed in a URL scheme after the first letter. -/
def isSchemeChar (c : Char) : Bool := c.isAlphanum || c == '+' || c == '-' || c == '.'

/-- Drop a valid `scheme:` head from the URL, as `urlparse` does. -/
def removeScheme (url : List Char) : List Char :=
  let pre := url.takeWhile (fun c => !(c == ':'))
  if url.contains ':' && !pre.isEmpty &&
      (match pre with
       | c :: cs => c.isAlpha && cs.all isSchemeChar
       | [] => false) then
    url.drop (pre.length + 1)
  else url

/-- The `netloc` of `urllib.parse.urlparse`: text after `//` up to the next
`/`, `?` or `#`; `none` models the `ValueError` raised on unbalanced square
brackets; an URL without `//` has an empty netloc. -/
def parseNetloc (url : List Char) : Option (List Char) :=
  let rest := removeScheme url
  if startsWithL "//".data rest then
    let nl := (rest.drop 2).takeWhile (fun c => !(c == '/') && !(c == '?') && !(c == '#'))
    if nl.contains '[' != nl.contains ']' then none else some nl
  else some []

/-- Strip a leading `www.` from the domain. -/
def stripWww (d : List Char) : List Char :=
  if startsWithL "www.".data d then d.drop 4 else d

/-- `get_scraper_function` from src/scrapers/scraper_factory.py: `none` is
Python `None` (store not supported), also produced by the `except` clause
when `urlparse` raises. -/
def get_scraper_function (url : List Char) : Option Store :=
  match parseNetloc url with
  | none => none
  | some netloc =>
    let domain := stripWww (toLowerStr netloc)
    if containsL "amazon.com".data domain || containsL "amazon.".data domain then
      some .amazon
    else if containsL "mercadolibre.com".data domain || containsL "mercadolibre.".data domain ||
        containsL "mercadolibre.com.".data domain then
      some .mercadolibre
    else none

/-- `get_supported_stores` from src/scrapers/scraper_factory.py. -/
def get_supported_stores : List (List Char) := ["Amazon".data, "MercadoLibre".data]

/-! ## Data model (src/models.py) and the persistence step of
`scrape_product` (src/main.py lines 226-282) -/

/-- The transient scraper result dictionary
`{'title': ..., 'price': ..., 'image_url': ...}`. -/
structure ExtractionResult where
  title : Option (List Char)
  price : Option (List Char)
  image_url : Option (List Char)
deriving DecidableEq

/-- A `product` table row. -/
structure Product where
  id : Nat
  name : List Char
  base_url : List Char
  created_at : Nat
  updated_at : Nat
deriving DecidableEq

/-- A `pricehistory` table row. -/
structure PriceHistoryRow where
  id : Nat
  product_id : Nat
  store_name : List Char
  price : ℚ
  timestamp : Nat
deriving DecidableEq

/-- The database: the two tables plus the auto-increment counters. -/
structure DB where
  products : List Product
  history : List PriceHistoryRow
  nextProductId : Nat
  nextHistoryId : Nat
deriving DecidableEq

/-- The store-label detection chain of `scrape_product`
(src/main.py lines 250-271), keyed on the lowercased request URL. -/
def detect_store_name (url : List Char) : List Char :=
  let l := toLowerStr url
  if containsL "amazon.com".data l then "Amazon.com".data
  else if containsL "amazon.es".data l then "Amazon.es".data
  else if containsL "amazon.co.uk".data l then "Amazon.co.uk".data
  else if containsL "amazon".data l then "Amazon".data
  else if containsL "mercadolibre.com.mx".data l then "MercadoLibre México".data
  else if containsL "mercadolibre.com.ar".data l then "MercadoLibre Argentina".data
  else if containsL "mercadolibre.com.co".data l then "MercadoLibre Colombia".data
  else if containsL "mercadolibre.com.br".data l || containsL "mercadolivre.com.br".data l then
    "MercadoLibre Brasil".data
  else if containsL "mercadolibre".data l then "MercadoLibre".data
  else "Unknown Store".data

/-- The price-history append of `scrape_product` (src/main.py lines 273-282):
one row is appended iff the price string parses. -/
def addPrice (db : DB) (pid : Nat) (store : List Char) (priceStr : Option (List Char))
    (now : Nat) : DB :=
  match parse_price priceStr with
  | some v =>
    { db with
      history := db.history ++ [⟨db.nextHistoryId, pid, store, v, now⟩],
      nextHistoryId := db.nextHistoryId + 1 }
  | none => db

/-- The database section of `scrape_product` (src/main.py lines 226-282):
upsert the `Product` row keyed by the canonical URL, then append the price
observation.  Returns the new database and the product id. -/
def saveScrape (db : DB) (url : List Char) (data : ExtractionResult) (now : Nat) :
    DB × Nat :=
  match db.products.find? (fun q => q.base_url == simplify_url url) with
  | some p =>
    let p' : Product :=
      { p with name := pyOrStr data.title p.name, updated_at := now }
    let db1 : DB :=
      { db with products := db.products.map (fun q => if q.id == p.id then p' else q) }
    (addPrice db1 p.id (detect_store_name url) data.price now, p.id)
  | none =>
    let p : Product :=
      ⟨db.nextProductId, pyOrStr data.title "Unknown Product".data, simplify_url url, now, now⟩
    let db1 : DB :=
      { db with products := db.products ++ [p], nextProductId := db.nextProductId + 1 }
    (addPrice db1 p.id (detect_store_name url) data.price now, p.id)

/-- The `has_data = any([...])` check of `scrape_product`
(src/main.py lines 211-215): at least one field is truthy. -/
def usable (d : ExtractionResult) : Bool :=
  truthy d.title || truthy d.price || truthy d.image_url

/-- The user-visible outcome of the `/api/scrape` endpoint. -/
inductive ScrapeOutcome where
  /-- HTTP 400 carrying the supported-store labels. -/
  | unsupported (supported : List (List Char))
  /-- `success:false` with a diagnostic message and no database write. -/
  | noData (msg : List Char)
  /-- `success:true`; the upserted product id. -/
  | ok (productId : Nat)
deriving DecidableEq

/-- The `/api/scrape` endpoint (src/main.py lines 173-325), with the scraper
call abstracted: `data` is the dictionary the dispatched scraper function
returned. -/
def scrape_product (db : DB) (url : List Char) (data : ExtractionResult) (now : Nat) :
    ScrapeOutcome × DB :=
  match get_scraper_function url with
  | none => (.unsupported get_supported_stores, db)
  | some _ =>
    if usable data then
      ((.ok (saveScrape db url data now).2), (saveScrape db url data now).1)
    else
      (.noData "No data could be extracted from the page. The page might be blocked or the URL is invalid.".data,
        db)

/-- Well-formedness of the database: distinct product ids, the unique
constraint on `base_url`, and ids below the auto-increment counter. -/
def DB.wf (db : DB) : Prop :=
  db.products.Pairwise (fun a b => a.id ≠ b.id) ∧
  db.products.Pairwise (fun a b => a.base_url ≠ b.base_url) ∧
  ∀ p ∈ db.products, p.id < db.nextProductId

/-! ## Extraction (src/scraper.py `scrape_amazon_product`,
src/scrapers/mercadolibre_scraper.py `scrape_mercadolibre`)

The rendered page is embedded as a function from CSS selector to a query
outcome: an element (with `inner_text` and attributes), no element
(`query_selector` returned `None`), or an exception raised while querying.
`.raises` aborts the surrounding per-field `try` block, so the remaining
selectors of that field are skipped while other fields are unaffected. -/

/-- A DOM element handle: its text and its attribute list. -/
structure ElemModel where
  innerText : List Char
  attrs : List (List Char × List Char)
deriving DecidableEq

/-- `element.get_attribute(name)`. -/
def ElemModel.attr (e : ElemModel) (name : List Char) : Option (List Char) :=
  (e.attrs.find? (fun p => p.1 == name)).map (fun p => p.2)

/-- The outcome of `page.query_selector(selector)`. -/
inductive QueryOutcome where
  | found (e : ElemModel)
  | absent
  | raises
deriving DecidableEq

/-- A rendered page: what each selector query returns. -/
def PageModel : Type := List Char → QueryOutcome

/-- A text-extraction fallback chain (`inner_text().strip()` then `break` on
the first found element); an exception aborts the whole field. -/
def runTextChain (page : PageModel) : List (List Char) → Option (List Char)
  | [] => none
  | s :: rest =>
    match page s with
    | .found e => some (pyStrip e.innerText)
    | .absent => runTextChain page rest
    | .raises => none

def amazon_title_selectors : List (List Char) :=
  ["#productTitle".data, "h1#title".data, "h1.product-title".data, "span#productTitle".data]

def amazon_price_selectors : List (List Char) :=
  ["span.a-price.aok-align-center.reinventPricePriceToPayMargin.priceToPay span.a-offscreen".data,
   "span.a-price span.a-offscreen".data,
   "#priceblock_ourprice".data,
   "#priceblock_dealprice".data,
   "#price_inside_buybox".data,
   ".a-price .a-offscreen".data,
   "span[data-a-color=\"price\"] span.a-offscreen".data]

def amazon_image_selectors : List (List Char) :=
  ["#landingImage".data, "#imgBlkFront".data, "#main-image".data,
   "img.a-dynamic-image".data, "#imageBlock img".data]

/-- Best-effort model of `list(json.loads(s).keys())[0]` on a JSON object
literal whose first key is a plain string: the text between the first pair of
double quotes; `none` models any `json.loads`/`keys` failure, which the bare
`except: pass` keeps silent (the raw string is then used unchanged). -/
def jsonFirstKey (s : List Char) : Option (List Char) :=
  match s with
  | '\x7b' :: rest =>
    match rest.dropWhile Char.isWhitespace with
    | '"' :: r2 =>
      if r2.any (fun c => c == '"') then some (r2.takeWhile (fun c => !(c == '"')))
      else none
    | _ => none
  | _ => none

/-- The per-element image logic of `scrape_amazon_product`
(src/scraper.py lines 149-168): prefer `src`, fall back to the
high-resolution attributes on a missing or `data:image` placeholder value,
and decode a `\x7b`-leading JSON blob to its first key. -/
def amazonImageFromElem (e : ElemModel) : Option (List Char) :=
  let src := e.attr "src".data
  let img1 :=
    if !truthy src || containsL "data:image".data (src.getD []) then
      pyOr (e.attr "data-old-hires".data) (e.attr "data-a-dynamic-image".data)
    else src
  if truthy img1 then
    let u := img1.getD []
    some (match u with
          | '\x7b' :: _ =>
            (match jsonFirstKey u with
             | some k => k
             | none => u)
          | _ => u)
  else none

/-- The Amazon image fallback chain (src/scraper.py lines 147-168): an
element whose attributes yield no usable URL does not stop the chain. -/
def runAmazonImageChain (page : PageModel) : List (List Char) → Option (List Char)
  | [] => none
  | s :: rest =>
    match page s with
    | .found e =>
      match amazonImageFromElem e with
      | some u => some u
      | none => runAmazonImageChain page rest
    | .absent => runAmazonImageChain page rest
    | .raises => none

/-- The extraction stage of `scrape_amazon_product`: the three fields run in
their own `try` blocks. -/
def extract_amazon (page : PageModel) : ExtractionResult :=
  ⟨runTextChain page amazon_title_selectors,
   runTextChain page amazon_price_selectors,
   runAmazonImageChain page amazon_image_selectors⟩

def ml_title_selectors : List (List Char) :=
  ["h1.ui-pdp-title".data, ".ui-pdp-title".data, "h1[class*=\"title\"]".data,
   "h1.item-title".data, ".item-title__primary".data]

def ml_price_selectors : List (List Char) :=
  [".andes-money-amount__fraction".data,
   ".price-tag-fraction".data,
   "span.andes-money-amount__fraction".data,
   ".andes-money-amount--cents-superscript .andes-money-amount__fraction".data,
   "span[class*=\"price-tag-fraction\"]".data,
   ".price-tag-amount".data,
   "meta[itemprop=\"price\"]".data]

def ml_image_selectors : List (List Char) :=
  ["figure.ui-pdp-gallery__figure img".data, ".ui-pdp-image".data,
   "img.ui-pdp-gallery__figure__image".data, ".ui-pdp-gallery__figure img[src]".data,
   "figure img[data-zoom]".data, ".gallery-image img".data, "img[class*=\"gallery\"]".data]

/-- The currency-symbol selector of `scrape_mercadolibre`. -/
def mlCurrencySel : List Char := ".andes-money-amount__currency-symbol".data

/-- The currency markers checked by `scrape_mercadolibre`. -/
def mlSymbols : List (List Char) :=
  ["$".data, "€".data, "£".data, "USD".data, "MXN".data, "ARS".data]

/-- `any(symbol in price_text for symbol in [...])`. -/
def hasCurrencyMarker (t : List Char) : Bool := mlSymbols.any (fun s => containsL s t)

/-- The MercadoLibre price fallback chain
(src/scrapers/mercadolibre_scraper.py lines 113-151): `meta` selectors read
the `content` attribute, other selectors the element text; a found price is
prefixed with the currency-symbol element's text, else with `$` when no
currency marker is present. -/
def runMlPriceChain (page : PageModel) : List (List Char) → Option (List Char)
  | [] => none
  | s :: rest =>
    if startsWithL "meta".data s then
      match page s with
      | .raises => none
      | .absent => runMlPriceChain page rest
      | .found e =>
        match e.attr "content".data with
        | some v =>
          if v.isEmpty then runMlPriceChain page rest
          else
            match page mlCurrencySel with
            | .raises => none
            | .found ce => some (pyStrip ce.innerText ++ v)
            | .absent => some ('$' :: v)
        | none => runMlPriceChain page rest
    else
      match page s with
      | .raises => none
      | .absent => runMlPriceChain page rest
      | .found e =>
        match page mlCurrencySel with
        | .raises => none
        | .found ce => some (pyStrip ce.innerText ++ pyStrip e.innerText)
        | .absent =>
          if hasCurrencyMarker (pyStrip e.innerText) then some (pyStrip e.innerText)
          else some ('$' :: pyStrip e.innerText)

/-- The MercadoLibre image fallback chain
(src/scrapers/mercadolibre_scraper.py lines 158-178): `src`, `data-src`,
`data-zoom` in Python `or` order; `data:` URIs do not stop the chain. -/
def runMlImageChain (page : PageModel) : List (List Char) → Option (List Char)
  | [] => none
  | s :: rest =>
    match page s with
    | .raises => none
    | .absent => runMlImageChain page rest
    | .found e =>
      let u := pyOr (pyOr (e.attr "src".data) (e.attr "data-src".data))
        (e.attr "data-zoom".data)
      match u with
      | some v =>
        if !v.isEmpty && !startsWithL "data:".data v then some v
        else runMlImageChain page rest
      | none => runMlImageChain page rest

/-- The extraction stage of `scrape_mercadolibre`. -/
def extract_ml (page : PageModel) : ExtractionResult :=
  ⟨runTextChain page ml_title_selectors,
   runMlPriceChain page ml_price_selectors,
   runMlImageChain page ml_image_selectors⟩

/-- What happened when the scraper navigated to the page. -/
inductive RenderOutcome where
  | ok (page : PageModel)
  | timeout
  | failed

/-- All three result fields still hold their initial `None`. -/
def emptyResult : ExtractionResult := ⟨none, none, none⟩

/-- `scrape_amazon_product` (src/scraper.py lines 12-181): a navigation
timeout (`except PlaywrightTimeout`) or any other navigation-stage exception
(`except Exception`) leaves the initial all-`None` result dictionary, which
is returned on every path. -/
def scrape_amazon_product (r : RenderOutcome) : ExtractionResult :=
  match r with
  | .ok page => extract_amazon page
  | .timeout => emptyResult
  | .failed => emptyResult

/-- `scrape_mercadolibre` (src/scrapers/mercadolibre_scraper.py
lines 9-191), same structure. -/
def scrape_mercadolibre (r : RenderOutcome) : ExtractionResult :=
  match r with
  | .ok page => extract_ml page
  | .timeout => emptyResult
  | .failed => emptyResult

/-- The spec-side chain semantics for comparison: an exception while testing
one selector is treated as "did not match", advancing to the next candidate
(spec section 4.2). -/
def runTextChainSpec (page : PageModel) : List (List Char) → Option (List Char)
  | [] => none
  | s :: rest =>
    match page s with
    | .found e => some (pyStrip e.innerText)
    | .absent => runTextChainSpec page rest
    | .raises => runTextChainSpec page rest

/-- A concrete page on which the first title selector raises while the
second one matches. -/
def c5Page : PageModel := fun s =>
  if s == "#productTitle".data then .raises
  else if s == "h1#title".data then .found ⟨"Fallback Title".data, []⟩
  else .absent

/-- `c5Page` with a raising price selector, agreeing with `c5Page` on every
title selector. -/
def c5PageB : PageModel := fun s =>
  if s == ".a-price .a-offscreen".data then .raises else c5Page s

/-- A concrete page with a good title but a raising first price selector. -/
def c8Page : PageModel := fun s =>
  if s == "#productTitle".data then .found ⟨"CeraVe Cleanser".data, []⟩
  else if s == "span.a-price.aok-align-center.reinventPricePriceToPayMargin.priceToPay span.a-offscreen".data then
    .raises
  else .absent

/-! ### Characterization of the two pattern scanners -/

/-- An Amazon id captured by `/dp/([A-Z0-9]+)` is a nonempty `[A-Z0-9]` run. -/
theorem amazonId_some : ∀ (s id : List Char), amazonId s = some id →
    ∃ e rest, id = e :: rest ∧ isUA e = true ∧ ∀ x ∈ rest, isUA x = true
  | [], id, h => by simp [amazonId] at h
  | a :: s', id, h => by
    by_cases hm : matchesDp (a :: s') = true
    · rcases hd : (a :: s').drop 4 with _ | ⟨e, tail⟩
      · exfalso
        have h2 := hm
        simp only [matchesDp, hd, Bool.and_eq_true] at h2
        exact absurd h2.2 (by simp)
      · have he : isUA e = true := by
          have h2 := hm
          simp only [matchesDp, hd, Bool.and_eq_true] at h2
          exact h2.2
        simp only [amazonId, hm, if_true, hd] at h
        rw [List.takeWhile_cons_of_pos he] at h
        refine ⟨e, tail.takeWhile isUA, (Option.some.inj h).symm, he, ?_⟩
        exact fun x hx => List.mem_takeWhile_imp hx
    · simp only [amazonId, hm, if_false] at h
      exact amazonId_some s' id h

/-- `amazonId` finds nothing in a string without `/`. -/
theorem amazonId_eq_none : ∀ (s : List Char), (∀ x ∈ s, x ≠ '/') → amazonId s = none
  | [], _ => rfl
  | c :: rest, h => by
    have hc : c ≠ '/' := h c (List.mem_cons_self c rest)
    have hm : matchesDp (c :: rest) = false := by
      have h1 : matchesDp (c :: rest) =
          ((('/' == c) && startsWithL "dp/".data rest) &&
            (match (c :: rest).drop 4 with | c :: _ => isUA c | [] => false)) := rfl
      rw [h1, show ('/' == c) = false from beq_eq_false_iff_ne.mpr (Ne.symm hc)]
      simp
    simp only [amazonId, hm, if_false]
    exact amazonId_eq_none rest (fun x hx => h x (List.mem_cons_of_mem _ hx))

/-- A MercadoLibre id captured by `(ML[A-Z]-?\d+)` is `ML`, an upper-case
letter, then the greedy `-?\d+` text. -/
theorem mlId_some : ∀ (s id : List Char), mlId s = some id →
    ∃ c tl, id = 'M' :: 'L' :: c :: mlTakeTail tl ∧ c.isUpper = true ∧ mlTail tl = true
  | [], id, h => by simp [mlId] at h
  | a :: s', id, h => by
    by_cases hm : matchesML (a :: s') = true
    · rcases hd : (a :: s').drop 2 with _ | ⟨c, tl⟩
      · exfalso
        have h2 := hm
        simp only [matchesML, hd, Bool.and_eq_true] at h2
        exact absurd h2.2 (by simp)
      · have h2 := hm
        simp only [matchesML, hd, Bool.and_eq_true] at h2
        obtain ⟨-, hc, ht⟩ := h2
        simp only [mlId, hm, if_true, mlTake, hd] at h
        exact ⟨c, tl, (Option.some.inj h).symm, hc, ht⟩
    · simp only [mlId, hm, if_false] at h
      exact mlId_some s' id h

/-- Every character of the `-?\d+` part is `-` or a digit, the part still
matches `-?\d+`, and taking it again is the identity. -/
theorem mlTakeTail_spec (tl : List Char) (h : mlTail tl = true) :
    (∀ x ∈ mlTakeTail tl, x = '-' ∨ x.isDigit = true) ∧
      mlTail (mlTakeTail tl) = true ∧ mlTakeTail (mlTakeTail tl) = mlTakeTail tl := by
  match tl with
  | [] => simp [mlTail] at h
  | a :: rest =>
    by_cases ha : a = '-'
    · subst ha
      match rest with
      | [] => simp [mlTail] at h
      | d :: ds =>
        simp only [mlTail, if_pos rfl, if_true] at h
        simp only [mlTakeTail, if_pos rfl, if_true]
        refine ⟨?_, ?_, ?_⟩
        · intro x hx
          rcases List.mem_cons.mp hx with rfl | hx2
          · exact Or.inl rfl
          · rcases List.mem_cons.mp hx2 with rfl | hx3
            · exact Or.inr h
            · exact Or.inr (List.mem_takeWhile_imp hx3)
        · simp only [mlTail, if_pos rfl, if_true]
          exact h
        · simp [mlTakeTail, List.takeWhile_idem]
    · simp only [mlTail, if_neg ha] at h
      simp only [mlTakeTail, if_neg ha]
      have hne : ∀ x ∈ a :: rest.takeWhile Char.isDigit, x = '-' ∨ x.isDigit = true := by
        intro x hx
        rcases List.mem_cons.mp hx with rfl | hx
        · exact Or.inr h
        · exact Or.inr (List.mem_takeWhile_imp hx)
      refine ⟨hne, ?_, ?_⟩
      · simp only [mlTail, if_neg ha]
        exact h
      · simp only [mlTakeTail, if_neg ha, List.takeWhile_idem]

/-- Character-class facts used to rule out pattern matches inside ids. -/
theorem upper_ne (c : Char) (h : c.isUpper = true) : c ≠ '/' ∧ c ≠ 'm' ∧ c ≠ 'e' := by
  refine ⟨?_, ?_, ?_⟩ <;> rintro rfl <;> simp [Char.isUpper] at h

theorem digit_ne (c : Char) (h : c.isDigit = true) : c ≠ '/' ∧ c ≠ 'm' ∧ c ≠ 'e' := by
  refine ⟨?_, ?_, ?_⟩ <;> rintro rfl <;> simp [Char.isDigit] at h

theorem dashDigit_ne_slash (x : Char) (hx : x = '-' ∨ x.isDigit = true) : x ≠ '/' := by
  rcases hx with rfl | hx
  · decide
  · exact (digit_ne x hx).1

/-- `Char.toLower` fixes digits. -/
theorem toLower_digit (c : Char) (h : c.isDigit = true) : c.toLower = c := by
  unfold Char.toLower
  have h1 : c.toNat ≤ 57 := by
    simp only [Char.isDigit, Bool.and_eq_true, decide_eq_true_eq] at h
    exact UInt32.toNat_le_of_le (by norm_num) h.2
  rw [if_neg]
  omega

/-- Lowercasing fixes a `-?\d+` text. -/
theorem toLowerStr_fix (t : List Char) (ht : ∀ x ∈ t, x = '-' ∨ x.isDigit = true) :
    toLowerStr t = t := by
  induction t with
  | nil => rfl
  | cons a t2 ih =>
    have ha : a.toLower = a := by
      rcases ht a (List.mem_cons_self a t2) with rfl | ha
      · decide
      · exact toLower_digit a ha
    simp only [toLowerStr, List.map_cons, ha]
    exact congrArg _ (ih fun x hx => ht x (List.mem_cons_of_mem _ hx))

/-- A needle starting with `me` never occurs in a character followed by a
`-?\d+` text: no character of the text can follow an `m`. -/
theorem containsL_me_false (nr : List Char) :
    ∀ (t : List Char), (∀ x ∈ t, x = '-' ∨ x.isDigit = true) →
      ∀ lc : Char, containsL ('m' :: 'e' :: nr) (lc :: t) = false
  | [], _, lc => by
    simp [containsL, startsWithL]
  | a :: t2, ht, lc => by
    have hae : ('e' == a) = false := by
      rcases ht a (List.mem_cons_self a t2) with rfl | ha
      · decide
      · exact beq_eq_false_iff_ne.mpr (Ne.symm (digit_ne a ha).2.2)
    have h1 : containsL ('m' :: 'e' :: nr) (lc :: a :: t2) =
        ((('m' == lc) && (('e' == a) && startsWithL nr t2)) ||
          containsL ('m' :: 'e' :: nr) (a :: t2)) := rfl
    rw [h1, hae,
      containsL_me_false nr t2 (fun x hx => ht x (List.mem_cons_of_mem _ hx)) a]
    simp

/-! ### Stability of canonical URLs under re-canonicalization -/

/-- The canonical Amazon URL of an id is matched by the Amazon pattern at its
`/dp/` segment, returning the id itself. -/
theorem amazonId_canon (e : Char) (rest : List Char) (he : isUA e = true)
    (hr : ∀ x ∈ rest, isUA x = true) :
    amazonId ("https://www.amazon.com/dp/".data ++ e :: rest) = some (e :: rest) := by
  have h1 : amazonId ("https://www.amazon.com/dp/".data ++ e :: rest) =
      if isUA e then some ((e :: rest).takeWhile isUA)
      else amazonId ("dp/".data ++ e :: rest) := rfl
  rw [h1, if_pos he, List.takeWhile_eq_self_iff.mpr ?_]
  intro x hx
  rcases List.mem_cons.mp hx with rfl | hx
  · exact he
  · exact hr x hx

/-- The canonical Amazon URL of an Amazon id is a fixed point of
`simplify_url`. -/
theorem simplify_fixed_amz (e : Char) (rest : List Char) (he : isUA e = true)
    (hr : ∀ x ∈ rest, isUA x = true) :
    simplify_url ("https://www.amazon.com/dp/".data ++ e :: rest) =
      "https://www.amazon.com/dp/".data ++ e :: rest := by
  simp only [simplify_url, amazonId_canon e rest he hr]

/-- The characters of a MercadoLibre canonical id (after the leading `ML`)
are never `/`. -/
theorem mlCanonTail_ne_slash (c : Char) (tl : List Char) (hc : c.isUpper = true)
    (ht : mlTail tl = true) : ∀ x ∈ c :: mlTakeTail tl, x ≠ '/' := by
  intro x hx
  rcases List.mem_cons.mp hx with rfl | hx
  · exact (upper_ne x hc).1
  · exact dashDigit_ne_slash x ((mlTakeTail_spec tl ht).1 x hx)

/-- A needle of the form `me…` does not occur in the lowered id tail. -/
theorem containsL_me_id_false (nr : List Char) (c : Char) (tl : List Char)
    (ht : mlTail tl = true) :
    containsL ('m' :: 'e' :: nr) (c.toLower :: toLowerStr (mlTakeTail tl)) = false := by
  rw [toLowerStr_fix _ (mlTakeTail_spec tl ht).1]
  exact containsL_me_false nr _ (mlTakeTail_spec tl ht).1 c.toLower

/-- The canonical MercadoLibre Mexico URL of an id is a fixed point of
`simplify_url`. -/
theorem simplify_fixed_mx (c : Char) (tl : List Char) (hc : c.isUpper = true)
    (ht : mlTail tl = true) :
    simplify_url ("https://www.mercadolibre.com.mx/item/".data ++ 'M' :: 'L' :: c :: mlTakeTail tl) =
      "https://www.mercadolibre.com.mx/item/".data ++ 'M' :: 'L' :: c :: mlTakeTail tl := by
  have spec := mlTakeTail_spec tl ht
  have ha : amazonId ("https://www.mercadolibre.com.mx/item/".data ++ 'M' :: 'L' :: c :: mlTakeTail tl) = none := by
    have h1 : amazonId ("https://www.mercadolibre.com.mx/item/".data ++ 'M' :: 'L' :: c :: mlTakeTail tl) =
        amazonId (c :: mlTakeTail tl) := rfl
    rw [h1]
    exact amazonId_eq_none _ (mlCanonTail_ne_slash c tl hc ht)
  have hm : mlId ("https://www.mercadolibre.com.mx/item/".data ++ 'M' :: 'L' :: c :: mlTakeTail tl) =
      some ('M' :: 'L' :: c :: mlTakeTail tl) := by
    have h1 : mlId ("https://www.mercadolibre.com.mx/item/".data ++ 'M' :: 'L' :: c :: mlTakeTail tl) =
        if c.isUpper && mlTail (mlTakeTail tl) then
          some ('M' :: 'L' :: c :: mlTakeTail (mlTakeTail tl))
        else mlId ('L' :: c :: mlTakeTail tl) := rfl
    rw [h1, hc, spec.2.1]
    simp [spec.2.2]
  have hmx : containsL "mercadolibre.com.mx".data
      (toLowerStr ("https://www.mercadolibre.com.mx/item/".data ++ 'M' :: 'L' :: c :: mlTakeTail tl)) = true := rfl
  simp only [simplify_url, ha, hm, hmx, if_true]

/-- The canonical MercadoLibre Argentina URL of an id is a fixed point of
`simplify_url`. -/
theorem simplify_fixed_ar (c : Char) (tl : List Char) (hc : c.isUpper = true)
    (ht : mlTail tl = true) :
    simplify_url ("https://www.mercadolibre.com.ar/item/".data ++ 'M' :: 'L' :: c :: mlTakeTail tl) =
      "https://www.mercadolibre.com.ar/item/".data ++ 'M' :: 'L' :: c :: mlTakeTail tl := by
  have spec := mlTakeTail_spec tl ht
  have ha : amazonId ("https://www.mercadolibre.com.ar/item/".data ++ 'M' :: 'L' :: c :: mlTakeTail tl) = none := by
    have h1 : amazonId ("https://www.mercadolibre.com.ar/item/".data ++ 'M' :: 'L' :: c :: mlTakeTail tl) =
        amazonId (c :: mlTakeTail tl) := rfl
    rw [h1]
    exact amazonId_eq_none _ (mlCanonTail_ne_slash c tl hc ht)
  have hm : mlId ("https://www.mercadolibre.com.ar/item/".data ++ 'M' :: 'L' :: c :: mlTakeTail tl) =
      some ('M' :: 'L' :: c :: mlTakeTail tl) := by
    have h1 : mlId ("https://www.mercadolibre.com.ar/item/".data ++ 'M' :: 'L' :: c :: mlTakeTail tl) =
        if c.isUpper && mlTail (mlTakeTail tl) then
          some ('M' :: 'L' :: c :: mlTakeTail (mlTakeTail tl))
        else mlId ('L' :: c :: mlTakeTail tl) := rfl
    rw [h1, hc, spec.2.1]
    simp [spec.2.2]
  have hmx : containsL "mercadolibre.com.mx".data
      (toLowerStr ("https://www.mercadolibre.com.ar/item/".data ++ 'M' :: 'L' :: c :: mlTakeTail tl)) = false := by
    have h1 : containsL "mercadolibre.com.mx".data
        (toLowerStr ("https://www.mercadolibre.com.ar/item/".data ++ 'M' :: 'L' :: c :: mlTakeTail tl)) =
        containsL "mercadolibre.com.mx".data (c.toLower :: toLowerStr (mlTakeTail tl)) := rfl
    rw [h1]
    exact containsL_me_id_false _ c tl ht
  have har : containsL "mercadolibre.com.ar".data
      (toLowerStr ("https://www.mercadolibre.com.ar/item/".data ++ 'M' :: 'L' :: c :: mlTakeTail tl)) = true := rfl
  simp only [simplify_url, ha, hm, hmx, har, if_true, Bool.false_eq_true, if_false]

/-- The canonical MercadoLibre Colombia URL of an id is a fixed point of
`simplify_url`. -/
theorem simplify_fixed_co (c : Char) (tl : List Char) (hc : c.isUpper = true)
    (ht : mlTail tl = true) :
    simplify_url ("https://www.mercadolibre.com.co/item/".data ++ 'M' :: 'L' :: c :: mlTakeTail tl) =
      "https://www.mercadolibre.com.co/item/".data ++ 'M' :: 'L' :: c :: mlTakeTail tl := by
  have spec := mlTakeTail_spec tl ht
  have ha : amazonId ("https://www.mercadolibre.com.co/item/".data ++ 'M' :: 'L' :: c :: mlTakeTail tl) = none := by
    have h1 : amazonId ("https://www.mercadolibre.com.co/item/".data ++ 'M' :: 'L' :: c :: mlTakeTail tl) =
        amazonId (c :: mlTakeTail tl) := rfl
    rw [h1]
    exact amazonId_eq_none _ (mlCanonTail_ne_slash c tl hc ht)
  have hm : mlId ("https://www.mercadolibre.com.co/item/".data ++ 'M' :: 'L' :: c :: mlTakeTail tl) =
      some ('M' :: 'L' :: c :: mlTakeTail tl) := by
    have h1 : mlId ("https://www.mercadolibre.com.co/item/".data ++ 'M' :: 'L' :: c :: mlTakeTail tl) =
        if c.isUpper && mlTail (mlTakeTail tl) then
          some ('M' :: 'L' :: c :: mlTakeTail (mlTakeTail tl))
        else mlId ('L' :: c :: mlTakeTail tl) := rfl
    rw [h1, hc, spec.2.1]
    simp [spec.2.2]
  have hmx : containsL "mercadolibre.com.mx".data
      (toLowerStr ("https://www.mercadolibre.com.co/item/".data ++ 'M' :: 'L' :: c :: mlTakeTail tl)) = false := by
    have h1 : containsL "mercadolibre.com.mx".data
        (toLowerStr ("https://www.mercadolibre.com.co/item/".data ++ 'M' :: 'L' :: c :: mlTakeTail tl)) =
        containsL "mercadolibre.com.mx".data (c.toLower :: toLowerStr (mlTakeTail tl)) := rfl
    rw [h1]
    exact containsL_me_id_false _ c tl ht
  have har : containsL "mercadolibre.com.ar".data
      (toLowerStr ("https://www.mercadolibre.com.co/item/".data ++ 'M' :: 'L' :: c :: mlTakeTail tl)) = false := by
    have h1 : containsL "mercadolibre.com.ar".data
        (toLowerStr ("https://www.mercadolibre.com.co/item/".data ++ 'M' :: 'L' :: c :: mlTakeTail tl)) =
        containsL "mercadolibre.com.ar".data (c.toLower :: toLowerStr (mlTakeTail tl)) := rfl
    rw [h1]
    exact containsL_me_id_false _ c tl ht
  have hco : containsL "mercadolibre.com.co".data
      (toLowerStr ("https://www.mercadolibre.com.co/item/".data ++ 'M' :: 'L' :: c :: mlTakeTail tl)) = true := rfl
  simp only [simplify_url, ha, hm, hmx, har, hco, if_true, Bool.false_eq_true, if_false]

/-- The canonical generic MercadoLibre URL of an id is a fixed point of
`simplify_url`. -/
theorem simplify_fixed_com (c : Char) (tl : List Char) (hc : c.isUpper = true)
    (ht : mlTail tl = true) :
    simplify_url ("https://www.mercadolibre.com/item/".data ++ 'M' :: 'L' :: c :: mlTakeTail tl) =
      "https://www.mercadolibre.com/item/".data ++ 'M' :: 'L' :: c :: mlTakeTail tl := by
  have spec := mlTakeTail_spec tl ht
  have ha : amazonId ("https://www.mercadolibre.com/item/".data ++ 'M' :: 'L' :: c :: mlTakeTail tl) = none := by
    have h1 : amazonId ("https://www.mercadolibre.com/item/".data ++ 'M' :: 'L' :: c :: mlTakeTail tl) =
        amazonId (c :: mlTakeTail tl) := rfl
    rw [h1]
    exact amazonId_eq_none _ (mlCanonTail_ne_slash c tl hc ht)
  have hm : mlId ("https://www.mercadolibre.com/item/".data ++ 'M' :: 'L' :: c :: mlTakeTail tl) =
      some ('M' :: 'L' :: c :: mlTakeTail tl) := by
    have h1 : mlId ("https://www.mercadolibre.com/item/".data ++ 'M' :: 'L' :: c :: mlTakeTail tl) =
        if c.isUpper && mlTail (mlTakeTail tl) then
          some ('M' :: 'L' :: c :: mlTakeTail (mlTakeTail tl))
        else mlId ('L' :: c :: mlTakeTail tl) := rfl
    rw [h1, hc, spec.2.1]
    simp [spec.2.2]
  have hmx : containsL "mercadolibre.com.mx".data
      (toLowerStr ("https://www.mercadolibre.com/item/".data ++ 'M' :: 'L' :: c :: mlTakeTail tl)) = false := by
    have h1 : containsL "mercadolibre.com.mx".data
        (toLowerStr ("https://www.mercadolibre.com/item/".data ++ 'M' :: 'L' :: c :: mlTakeTail tl)) =
        containsL "mercadolibre.com.mx".data (c.toLower :: toLowerStr (mlTakeTail tl)) := rfl
    rw [h1]
    exact containsL_me_id_false _ c tl ht
  have har : containsL "mercadolibre.com.ar".data
      (toLowerStr ("https://www.mercadolibre.com/item/".data ++ 'M' :: 'L' :: c :: mlTakeTail tl)) = false := by
    have h1 : containsL "mercadolibre.com.ar".data
        (toLowerStr ("https://www.mercadolibre.com/item/".data ++ 'M' :: 'L' :: c :: mlTakeTail tl)) =
        containsL "mercadolibre.com.ar".data (c.toLower :: toLowerStr (mlTakeTail tl)) := rfl
    rw [h1]
    exact containsL_me_id_false _ c tl ht
  have hco : containsL "mercadolibre.com.co".data
      (toLowerStr ("https://www.mercadolibre.com/item/".data ++ 'M' :: 'L' :: c :: mlTakeTail tl)) = false := by
    have h1 : containsL "mercadolibre.com.co".data
        (toLowerStr ("https://www.mercadolibre.com/item/".data ++ 'M' :: 'L' :: c :: mlTakeTail tl)) =
        containsL "mercadolibre.com.co".data (c.toLower :: toLowerStr (mlTakeTail tl)) := rfl
    rw [h1]
    exact containsL_me_id_false _ c tl ht
  simp only [simplify_url, ha, hm, hmx, har, hco, Bool.false_eq_true, if_false]

/-- `simplify_url` is idempotent on every input. -/
theorem simplify_url_idem (u : List Char) :
    simplify_url (simplify_url u) = simplify_url u := by
  cases ha : amazonId u with
  | some id =>
    obtain ⟨e, rest, rfl, he, hr⟩ := amazonId_some u id ha
    have h1 : simplify_url u = "https://www.amazon.com/dp/".data ++ e :: rest := by
      simp only [simplify_url, ha]
    rw [h1]
    exact simplify_fixed_amz e rest he hr
  | none =>
    cases hm : mlId u with
    | some id =>
      obtain ⟨c, tl, rfl, hc, ht⟩ := mlId_some u id hm
      cases h1 : containsL "mercadolibre.com.mx".data (toLowerStr u) with
      | true =>
        have h2 : simplify_url u =
            "https://www.mercadolibre.com.mx/item/".data ++ 'M' :: 'L' :: c :: mlTakeTail tl := by
          simp only [simplify_url, ha, hm, h1, if_true]
        rw [h2]
        exact simplify_fixed_mx c tl hc ht
      | false =>
        cases h2 : containsL "mercadolibre.com.ar".data (toLowerStr u) with
        | true =>
          have h3 : simplify_url u =
              "https://www.mercadolibre.com.ar/item/".data ++ 'M' :: 'L' :: c :: mlTakeTail tl := by
            simp only [simplify_url, ha, hm, h1, h2, if_true, Bool.false_eq_true, if_false]
          rw [h3]
          exact simplify_fixed_ar c tl hc ht
        | false =>
          cases h3 : containsL "mercadolibre.com.co".data (toLowerStr u) with
          | true =>
            have h4 : simplify_url u =
                "https://www.mercadolibre.com.co/item/".data ++ 'M' :: 'L' :: c :: mlTakeTail tl := by
              simp only [simplify_url, ha, hm, h1, h2, h3, if_true, Bool.false_eq_true, if_false]
            rw [h4]
            exact simplify_fixed_co c tl hc ht
          | false =>
            have h4 : simplify_url u =
                "https://www.mercadolibre.com/item/".data ++ 'M' :: 'L' :: c :: mlTakeTail tl := by
              simp only [simplify_url, ha, hm, h1, h2, h3, Bool.false_eq_true, if_false]
            rw [h4]
            exact simplify_fixed_com c tl hc ht
    | none =>
      simp only [simplify_url, ha, hm]

/-- A URL matching neither store pattern is returned unchanged. -/
theorem simplify_url_no_match (u : List Char) (ha : amazonId u = none)
    (hm : mlId u = none) : simplify_url u = u := by
  simp only [simplify_url, ha, hm]

/-! ### Claim C2 -/

/-- C2: `simplify_url` is idempotent: for every URL `u`,
`simplify_url (simplify_url u) = simplify_url u`; canonicalizing an
already-canonical URL of any supported store shape (Amazon `/dp/<ID>`, each
MercadoLibre regional item URL) returns it unchanged, and a URL matching no
store pattern is returned unchanged. -/
theorem C2_simplify_url_idempotent :
    (∀ u : List Char, simplify_url (simplify_url u) = simplify_url u) ∧
    (∀ e rest, isUA e = true → (∀ x ∈ rest, isUA x = true) →
      simplify_url ("https://www.amazon.com/dp/".data ++ e :: rest) =
        "https://www.amazon.com/dp/".data ++ e :: rest) ∧
    (∀ c tl, c.isUpper = true → mlTail tl = true →
      simplify_url ("https://www.mercadolibre.com.mx/item/".data ++ 'M' :: 'L' :: c :: mlTakeTail tl) =
        "https://www.mercadolibre.com.mx/item/".data ++ 'M' :: 'L' :: c :: mlTakeTail tl ∧
      simplify_url ("https://www.mercadolibre.com.ar/item/".data ++ 'M' :: 'L' :: c :: mlTakeTail tl) =
        "https://www.mercadolibre.com.ar/item/".data ++ 'M' :: 'L' :: c :: mlTakeTail tl ∧
      simplify_url ("https://www.mercadolibre.com.co/item/".data ++ 'M' :: 'L' :: c :: mlTakeTail tl) =
        "https://www.mercadolibre.com.co/item/".data ++ 'M' :: 'L' :: c :: mlTakeTail tl ∧
      simplify_url ("https://www.mercadolibre.com/item/".data ++ 'M' :: 'L' :: c :: mlTakeTail tl) =
        "https://www.mercadolibre.com/item/".data ++ 'M' :: 'L' :: c :: mlTakeTail tl) ∧
    (∀ u, amazonId u = none → mlId u = none → simplify_url u = u) := by
  refine ⟨simplify_url_idem, simplify_fixed_amz, fun c tl hc ht => ?_, simplify_url_no_match⟩
  exact ⟨simplify_fixed_mx c tl hc ht, simplify_fixed_ar c tl hc ht,
    simplify_fixed_co c tl hc ht, simplify_fixed_com c tl hc ht⟩

/-- Witness for C2 at concrete URLs of every supported shape. -/
theorem C2_witness :
    simplify_url (simplify_url "https://www.amazon.com/dp/B07RJ18VMF?tag=track-20".data) =
      simplify_url "https://www.amazon.com/dp/B07RJ18VMF?tag=track-20".data ∧
    simplify_url ("https://www.amazon.com/dp/".data ++ 'B' :: "07RJ18VMF".data) =
      "https://www.amazon.com/dp/".data ++ 'B' :: "07RJ18VMF".data ∧
    simplify_url ("https://www.mercadolibre.com.mx/item/".data ++ 'M' :: 'L' :: 'M' :: mlTakeTail "1234567890".data) =
      "https://www.mercadolibre.com.mx/item/".data ++ 'M' :: 'L' :: 'M' :: mlTakeTail "1234567890".data ∧
    simplify_url "https://example.com/item/1".data = "https://example.com/item/1".data :=
  ⟨C2_simplify_url_idempotent.1 _,
   C2_simplify_url_idempotent.2.1 'B' "07RJ18VMF".data (by decide) (by decide),
   (C2_simplify_url_idempotent.2.2.1 'M' "1234567890".data (by decide) (by decide)).1,
   C2_simplify_url_idempotent.2.2.2 _ (by decide) (by decide)⟩

/-! ### Claim C3 -/

/-- C3 counterexample: a regional Amazon URL (host `www.amazon.es`) is
canonicalized onto `www.amazon.com` — the region is not preserved in the
rebuilt host; likewise MercadoLibre Brasil collapses onto the generic
`www.mercadolibre.com` host. -/
theorem C3_counterexample :
    simplify_url "https://www.amazon.es/dp/B07RJ18VMF".data =
      "https://www.amazon.com/dp/B07RJ18VMF".data ∧
    containsL "amazon.es".data
      (simplify_url "https://www.amazon.es/dp/B07RJ18VMF".data) = false ∧
    simplify_url "https://www.mercadolibre.com.br/MLB-12345".data =
      "https://www.mercadolibre.com/item/MLB-12345".data := by
  refine ⟨by decide, by decide, by decide⟩

/-- C3 amended: region is inferred from the original URL and preserved only
for the MercadoLibre `.com.mx`/`.com.ar`/`.com.co` hosts (substring-checked
on the lowercased URL, in that order); any other MercadoLibre URL rebuilds on
the generic `www.mercadolibre.com` host, and every Amazon URL rebuilds on
`www.amazon.com` regardless of the original regional host. -/
theorem C3_amended_region_handling :
    (∀ u id, amazonId u = some id →
      simplify_url u = "https://www.amazon.com/dp/".data ++ id) ∧
    (∀ u id, amazonId u = none → mlId u = some id →
      (containsL "mercadolibre.com.mx".data (toLowerStr u) = true →
        simplify_url u = "https://www.mercadolibre.com.mx/item/".data ++ id) ∧
      (containsL "mercadolibre.com.mx".data (toLowerStr u) = false →
        containsL "mercadolibre.com.ar".data (toLowerStr u) = true →
        simplify_url u = "https://www.mercadolibre.com.ar/item/".data ++ id) ∧
      (containsL "mercadolibre.com.mx".data (toLowerStr u) = false →
        containsL "mercadolibre.com.ar".data (toLowerStr u) = false →
        containsL "mercadolibre.com.co".data (toLowerStr u) = true →
        simplify_url u = "https://www.mercadolibre.com.co/item/".data ++ id) ∧
      (containsL "mercadolibre.com.mx".data (toLowerStr u) = false →
        containsL "mercadolibre.com.ar".data (toLowerStr u) = false →
        containsL "mercadolibre.com.co".data (toLowerStr u) = false →
        simplify_url u = "https://www.mercadolibre.com/item/".data ++ id)) := by
  constructor
  · intro u id ha
    simp only [simplify_url, ha]
  · intro u id ha hm
    refine ⟨fun h1 => ?_, fun h1 h2 => ?_, fun h1 h2 h3 => ?_, fun h1 h2 h3 => ?_⟩
    · simp only [simplify_url, ha, hm, h1, if_true]
    · simp only [simplify_url, ha, hm, h1, h2, if_true, Bool.false_eq_true, if_false]
    · simp only [simplify_url, ha, hm, h1, h2, h3, if_true, Bool.false_eq_true, if_false]
    · simp only [simplify_url, ha, hm, h1, h2, h3, Bool.false_eq_true, if_false]

/-- Witness for the amended C3 at concrete regional URLs. -/
theorem C3_amended_witness :
    simplify_url "https://www.amazon.es/dp/B00X4WHP5E".data =
      "https://www.amazon.com/dp/".data ++ "B00X4WHP5E".data ∧
    simplify_url "https://articulo.mercadolibre.com.ar/MLA-333-x".data =
      "https://www.mercadolibre.com.ar/item/".data ++ "MLA-333".data :=
  ⟨C3_amended_region_handling.1 _ _ (by decide),
   (C3_amended_region_handling.2 _ _ (by decide) (by decide)).2.1 (by decide) (by decide)⟩

/-! ### Claims C7 and C10 -/

/-- C7: the price parser maps `"$14.98"` and `"14.98"` to 14.98 and
`"$1,299.00"` to 1299.00 (non-negative numeric prices), by keeping only
digits and dots and converting; strings without digits, the empty string and
`None` all yield no price rather than an error. -/
theorem C7_parse_price_examples :
    parse_price (some "$14.98".data) = some (1498 / 100 : ℚ) ∧
    parse_price (some "14.98".data) = some (1498 / 100 : ℚ) ∧
    parse_price (some "$1,299.00".data) = some (1299 : ℚ) ∧
    (0 : ℚ) ≤ 1498 / 100 ∧ (0 : ℚ) ≤ 1299 ∧
    (∀ s : List Char, (∀ c ∈ s, c.isDigit = false) → parse_price (some s) = none) ∧
    parse_price (some []) = none ∧ parse_price none = none := by
  refine ⟨?_, ?_, ?_, by norm_num, by norm_num, ?_, rfl, rfl⟩
  · show floatOfCleaned "14.98".data = _
    rw [floatOfCleaned, if_pos (by decide),
      show digitsVal (intPart "14.98".data) = 14 from by decide,
      show digitsVal (fracPart "14.98".data) = 98 from by decide,
      show (fracPart "14.98".data).length = 2 from by decide]
    norm_num
  · show floatOfCleaned "14.98".data = _
    rw [floatOfCleaned, if_pos (by decide),
      show digitsVal (intPart "14.98".data) = 14 from by decide,
      show digitsVal (fracPart "14.98".data) = 98 from by decide,
      show (fracPart "14.98".data).length = 2 from by decide]
    norm_num
  · show floatOfCleaned "1299.00".data = _
    rw [floatOfCleaned, if_pos (by decide),
      show digitsVal (intPart "1299.00".data) = 1299 from by decide,
      show digitsVal (fracPart "1299.00".data) = 0 from by decide]
    norm_num
  · intro s hs
    by_cases he : s.isEmpty = true
    · simp [parse_price, he]
    · show parse_price (some s) = none
      rw [show parse_price (some s) = floatOfCleaned (s.filter keptByClean) from by
          simp [parse_price, he],
        floatOfCleaned, if_neg]
      rintro ⟨-, hany⟩
      rw [List.any_eq_true] at hany
      obtain ⟨x, hx, hxd⟩ := hany
      rw [hs x (List.mem_of_mem_filter hx)] at hxd
      exact absurd hxd (by simp)

/-- Witness for C7 at a concrete digit-free string. -/
theorem C7_witness : parse_price (some "N/A".data) = none :=
  C7_parse_price_examples.2.2.2.2.2.1 "N/A".data (by decide)

/-- C10 (implicit): `parse_price` is total — every input yields either no
price or a price `≥ 0`; the cleaning step removes every minus sign, so a
negative price is impossible. -/
theorem C10_parse_price_total_nonneg (s : Option (List Char)) :
    parse_price s = none ∨ ∃ q : ℚ, parse_price s = some q ∧ 0 ≤ q := by
  match s with
  | none => exact Or.inl rfl
  | some s =>
    by_cases he : s.isEmpty = true
    · exact Or.inl (by simp [parse_price, he])
    · by_cases hc : (s.filter keptByClean).count '.' ≤ 1 ∧
        (s.filter keptByClean).any Char.isDigit
      · refine Or.inr ⟨(digitsVal (intPart (s.filter keptByClean)) : ℚ) +
          (digitsVal (fracPart (s.filter keptByClean)) : ℚ) /
            (10 : ℚ) ^ (fracPart (s.filter keptByClean)).length, ?_, ?_⟩
        · rw [show parse_price (some s) = floatOfCleaned (s.filter keptByClean) from by
              simp [parse_price, he],
            floatOfCleaned, if_pos hc]
        · positivity
      · refine Or.inl ?_
        rw [show parse_price (some s) = floatOfCleaned (s.filter keptByClean) from by
            simp [parse_price, he],
          floatOfCleaned, if_neg hc]

/-! ### Claim C9 -/

/-- C9: a URL whose host matches no registered store domain — including
`https://example.com/item/1` — and every URL whose authority fails to parse
resolve to no scraper, and the endpoint then answers with the 400-equivalent
`unsupported` outcome carrying the full ordered supported-store list, leaving
the database untouched (store resolution is a total function — never a
crash). -/
theorem C9_unsupported_store :
    (∀ db data now, scrape_product db "https://example.com/item/1".data data now =
      (.unsupported ["Amazon".data, "MercadoLibre".data], db)) ∧
    (∀ url, parseNetloc url = none → get_scraper_function url = none) ∧
    (∀ url netloc, parseNetloc url = some netloc →
      containsL "amazon.com".data (stripWww (toLowerStr netloc)) = false →
      containsL "amazon.".data (stripWww (toLowerStr netloc)) = false →
      containsL "mercadolibre.com".data (stripWww (toLowerStr netloc)) = false →
      containsL "mercadolibre.".data (stripWww (toLowerStr netloc)) = false →
      containsL "mercadolibre.com.".data (stripWww (toLowerStr netloc)) = false →
      get_scraper_function url = none) ∧
    (∀ db url data now, get_scraper_function url = none →
      scrape_product db url data now = (.unsupported get_supported_stores, db)) := by
  refine ⟨?_, ?_, ?_, ?_⟩
  · intro db data now
    show (ScrapeOutcome.unsupported get_supported_stores, db) = _
    rfl
  · intro url h
    simp only [get_scraper_function, h]
  · intro url netloc h h1 h2 h3 h4 h5
    simp only [get_scraper_function, h, h1, h2, h3, h4, h5, Bool.or_self, Bool.or_false,
      Bool.false_eq_true, if_false]
  · intro db url data now h
    simp only [scrape_product, h]

/-- Witness for C9 at the concrete unsupported URL and a malformed URL with
an unparsable authority. -/
theorem C9_witness :
    scrape_product ⟨[], [], 1, 1⟩ "https://example.com/item/1".data ⟨none, none, none⟩ 0 =
      (.unsupported ["Amazon".data, "MercadoLibre".data], ⟨[], [], 1, 1⟩) ∧
    get_scraper_function "http://[::1-malformed/x".data = none ∧
    get_scraper_function "https://notastore.org/p/1".data = none :=
  ⟨C9_unsupported_store.1 _ _ _,
   C9_unsupported_store.2.1 _ (by decide),
   C9_unsupported_store.2.2.1 _ "notastore.org".data (by decide) (by decide) (by decide)
     (by decide) (by decide) (by decide)⟩

/-! ### Claim C6 -/

/-- C6: when the dispatched scraper returns a result whose three fields are
all empty (`None` or `""`), the endpoint reports `success:false` with a
diagnostic message and performs no database write; a result with at least one
non-empty field proceeds to persistence. -/
theorem C6_all_empty_is_failure_no_write (db : DB) (url : List Char)
    (data : ExtractionResult) (now : Nat) (st : Store)
    (hs : get_scraper_function url = some st) :
    (usable data = false →
      scrape_product db url data now =
        (.noData "No data could be extracted from the page. The page might be blocked or the URL is invalid.".data,
          db)) ∧
    (usable data = true →
      scrape_product db url data now =
        (.ok (saveScrape db url data now).2, (saveScrape db url data now).1)) ∧
    (usable data = false ↔
      truthy data.title = false ∧ truthy data.price = false ∧ truthy data.image_url = false) := by
  refine ⟨?_, ?_, ?_⟩
  · intro h
    simp only [scrape_product, hs, h, Bool.false_eq_true, if_false]
  · intro h
    simp only [scrape_product, hs, h, if_true]
  · simp only [usable, Bool.or_eq_false_iff]
    tauto

/-- Witness for C6: an all-empty result on a supported URL leaves the
database unchanged; a title-only result proceeds to persistence. -/
theorem C6_witness :
    scrape_product ⟨[], [], 1, 1⟩ "https://www.amazon.com/dp/B07RJ18VMF".data
        ⟨some [], none, some []⟩ 0 =
      (.noData "No data could be extracted from the page. The page might be blocked or the URL is invalid.".data,
        ⟨[], [], 1, 1⟩) ∧
    scrape_product ⟨[], [], 1, 1⟩ "https://www.amazon.com/dp/B07RJ18VMF".data
        ⟨some "CeraVe".data, none, none⟩ 0 =
      (.ok (saveScrape ⟨[], [], 1, 1⟩ "https://www.amazon.com/dp/B07RJ18VMF".data
          ⟨some "CeraVe".data, none, none⟩ 0).2,
        (saveScrape ⟨[], [], 1, 1⟩ "https://www.amazon.com/dp/B07RJ18VMF".data
          ⟨some "CeraVe".data, none, none⟩ 0).1) :=
  ⟨(C6_all_empty_is_failure_no_write _ _ _ _ .amazon (by decide)).1 (by decide),
   (C6_all_empty_is_failure_no_write _ _ _ _ .amazon (by decide)).2.1 (by decide)⟩

/-! ### Persistence helper lemmas -/

theorem addPrice_products (db : DB) (pid : Nat) (store : List Char)
    (ps : Option (List Char)) (now : Nat) :
    (addPrice db pid store ps now).products = db.products := by
  unfold addPrice
  cases parse_price ps <;> rfl

theorem addPrice_nextProductId (db : DB) (pid : Nat) (store : List Char)
    (ps : Option (List Char)) (now : Nat) :
    (addPrice db pid store ps now).nextProductId = db.nextProductId := by
  unfold addPrice
  cases parse_price ps <;> rfl

theorem addPrice_history (db : DB) (pid : Nat) (store : List Char)
    (ps : Option (List Char)) (now : Nat) :
    (addPrice db pid store ps now).history = db.history ++
      (match parse_price ps with
       | some v => [⟨db.nextHistoryId, pid, store, v, now⟩]
       | none => []) := by
  unfold addPrice
  cases parse_price ps
  · simp
  · rfl

theorem addPrice_wf (db : DB) (pid : Nat) (store : List Char)
    (ps : Option (List Char)) (now : Nat) (h : DB.wf db) :
    DB.wf (addPrice db pid store ps now) := by
  unfold DB.wf at h ⊢
  rw [addPrice_products, addPrice_nextProductId]
  exact h

theorem pairwise_ne_map {κ : Type} (key : Product → κ) (f : Product → Product)
    (l : List Product) (hk : ∀ x ∈ l, key (f x) = key x)
    (h : l.Pairwise (fun a b => key a ≠ key b)) :
    (l.map f).Pairwise (fun a b => key a ≠ key b) := by
  induction l with
  | nil => simp
  | cons a t ih =>
    rw [List.pairwise_cons] at h
    rw [List.map_cons, List.pairwise_cons]
    refine ⟨?_, ih (fun x hx => hk x (List.mem_cons_of_mem _ hx)) h.2⟩
    intro b hb
    obtain ⟨x, hx, rfl⟩ := List.mem_map.mp hb
    rw [hk a (List.mem_cons_self a t), hk x (List.mem_cons_of_mem _ hx)]
    exact h.1 x hx

theorem filter_length_map (f : Product → Product) (P : Product → Bool)
    (l : List Product) (h : ∀ x ∈ l, P (f x) = P x) :
    ((l.map f).filter P).length = (l.filter P).length := by
  induction l with
  | nil => rfl
  | cons a t ih =>
    rw [List.map_cons, List.filter_cons, List.filter_cons, h a (List.mem_cons_self a t)]
    cases P a <;> simp [ih (fun x hx => h x (List.mem_cons_of_mem _ hx))]

theorem key_unique {κ : Type} (l : List Product) (key : Product → κ)
    (h : l.Pairwise (fun a b => key a ≠ key b)) :
    ∀ a ∈ l, ∀ b ∈ l, key a = key b → a = b := by
  intro a ha b hb hab
  by_contra hne
  have hsym : Symmetric (fun a b : Product => key a ≠ key b) := fun x y hxy he => hxy he.symm
  exact (List.Pairwise.forall hsym h) ha hb hne hab

theorem filter_key_len_le_one (l : List Product) (u : List Char)
    (h : l.Pairwise (fun a b => a.base_url ≠ b.base_url)) :
    (l.filter (fun p => p.base_url == u)).length ≤ 1 := by
  induction l with
  | nil => simp
  | cons a t ih =>
    rw [List.pairwise_cons] at h
    rw [List.filter_cons]
    cases ha : (a.base_url == u)
    · simpa using ih h.2
    · have ht : t.filter (fun p => p.base_url == u) = [] := by
        rw [List.filter_eq_nil_iff]
        intro x hx
        have hne : a.base_url ≠ x.base_url := h.1 x hx
        rw [beq_iff_eq] at ha
        simp only [beq_iff_eq]
        rw [← ha]
        exact fun hxe => hne hxe.symm
      simp [ht]

/-- The core facts about one `saveScrape` call on a well-formed database:
well-formedness is preserved, afterwards exactly one `Product` row carries
the canonical URL, the returned product id belongs to a row with the
canonical URL, and the history grows by exactly the parsed observation. -/
theorem saveScrape_main (db : DB) (url : List Char) (data : ExtractionResult)
    (now : Nat) (h : DB.wf db) :
    DB.wf (saveScrape db url data now).1 ∧
    ((saveScrape db url data now).1.products.filter
      (fun p => p.base_url == simplify_url url)).length = 1 ∧
    (∃ p' ∈ (saveScrape db url data now).1.products,
      p'.id = (saveScrape db url data now).2 ∧ p'.base_url = simplify_url url) ∧
    (saveScrape db url data now).1.history = db.history ++
      (match parse_price data.price with
       | some v => [⟨db.nextHistoryId, (saveScrape db url data now).2,
                     detect_store_name url, v, now⟩]
       | none => []) := by
  obtain ⟨hid, hburl, hbound⟩ := h
  cases hf : db.products.find? (fun q => q.base_url == simplify_url url) with
  | some p =>
    have hpmem : p ∈ db.products := List.mem_of_find?_eq_some hf
    have hpb : p.base_url = simplify_url url := by
      have := List.find?_some hf
      rwa [beq_iff_eq] at this
    simp only [saveScrape, hf]
    have hkid : ∀ x ∈ db.products,
        ((if x.id == p.id then
            ({ p with name := pyOrStr data.title p.name, updated_at := now } : Product)
          else x) : Product).id = x.id := by
      intro x _
      cases hxe : (x.id == p.id)
      · simp
      · rw [beq_iff_eq] at hxe
        simp [hxe]
    have hkburl : ∀ x ∈ db.products,
        ((if x.id == p.id then
            ({ p with name := pyOrStr data.title p.name, updated_at := now } : Product)
          else x) : Product).base_url = x.base_url := by
      intro x hx
      cases hxe : (x.id == p.id)
      · simp
      · rw [beq_iff_eq] at hxe
        have hxp : x = p := key_unique db.products (fun q => q.id) hid x hx p hpmem hxe
        subst hxp
        simp
    refine ⟨?_, ?_, ?_, ?_⟩
    · refine addPrice_wf _ _ _ _ _ ⟨?_, ?_, ?_⟩
      · exact pairwise_ne_map (fun q => q.id) _ _ hkid hid
      · exact pairwise_ne_map (fun q => q.base_url) _ _ hkburl hburl
      · intro y hy
        obtain ⟨x, hx, rfl⟩ := List.mem_map.mp hy
        rw [hkid x hx]
        exact hbound x hx
    · rw [addPrice_products, filter_length_map _ _ _ (fun x hx => by rw [hkburl x hx])]
      have hle := filter_key_len_le_one db.products (simplify_url url) hburl
      have hmem : p ∈ db.products.filter (fun q => q.base_url == simplify_url url) :=
        List.mem_filter.mpr ⟨hpmem, by rw [beq_iff_eq]; exact hpb⟩
      have hpos : 0 < (db.products.filter (fun q => q.base_url == simplify_url url)).length :=
        List.length_pos.mpr (List.ne_nil_of_mem hmem)
      omega
    · refine ⟨{ p with name := pyOrStr data.title p.name, updated_at := now }, ?_, rfl, hpb⟩
      rw [addPrice_products]
      exact List.mem_map.mpr ⟨p, hpmem, by simp⟩
    · rw [addPrice_history]
  | none =>
    have hnone := List.find?_eq_none.mp hf
    simp only [saveScrape, hf]
    refine ⟨?_, ?_, ?_, ?_⟩
    · refine addPrice_wf _ _ _ _ _ ⟨?_, ?_, ?_⟩
      · rw [List.pairwise_append]
        refine ⟨hid, List.pairwise_singleton _ _, ?_⟩
        intro a ha b hb
        rw [List.mem_singleton] at hb
        subst hb
        exact Nat.ne_of_lt (hbound a ha)
      · rw [List.pairwise_append]
        refine ⟨hburl, List.pairwise_singleton _ _, ?_⟩
        intro a ha b hb
        rw [List.mem_singleton] at hb
        subst hb
        have := hnone a ha
        simp only [beq_iff_eq] at this
        exact this
      · intro y hy
        rw [List.mem_append, List.mem_singleton] at hy
        rcases hy with hy | rfl
        · exact Nat.lt_succ_of_lt (hbound y hy)
        · exact Nat.lt_succ_self _
    · rw [addPrice_products, List.filter_append]
      have hl : db.products.filter (fun q => q.base_url == simplify_url url) = [] := by
        rw [List.filter_eq_nil_iff]
        exact hnone
      rw [hl]
      simp
    · refine ⟨⟨db.nextProductId, pyOrStr data.title "Unknown Product".data,
        simplify_url url, now, now⟩, ?_, rfl, rfl⟩
      rw [addPrice_products]
      exact List.mem_append_right _ (List.mem_singleton.mpr rfl)
    · rw [addPrice_history]

/-- When a (well-formed) database already holds a row with the canonical URL,
`saveScrape` returns that row's id. -/
theorem saveScrape_pid_of_mem (db : DB) (url : List Char) (data : ExtractionResult)
    (now : Nat) (h : DB.wf db) (p : Product) (hp : p ∈ db.products)
    (hb : p.base_url = simplify_url url) :
    (saveScrape db url data now).2 = p.id := by
  obtain ⟨hid, hburl, hbound⟩ := h
  cases hf : db.products.find? (fun q => q.base_url == simplify_url url) with
  | some q =>
    have hqmem : q ∈ db.products := List.mem_of_find?_eq_some hf
    have hqb : q.base_url = simplify_url url := by
      have := List.find?_some hf
      rwa [beq_iff_eq] at this
    have : q = p :=
      key_unique db.products (fun r => r.base_url) hburl q hqmem p hp (hqb.trans hb.symm)
    subst this
    simp only [saveScrape, hf]
  | none =>
    exfalso
    have := List.find?_eq_none.mp hf p hp
    simp only [beq_iff_eq] at this
    exact this hb

theorem take_len_append {α : Type} (l1 l2 : List α) : (l1 ++ l2).take l1.length = l1 := by
  induction l1 <;> simp [*]

theorem drop_len_append {α : Type} (l1 l2 : List α) : (l1 ++ l2).drop l1.length = l2 := by
  induction l1 <;> simp [*]

/-! ### Claim C4 -/

/-- C4: the persistence step — if a `Product` with the canonical URL exists,
its name is updated only when the scraped title is non-empty (otherwise the
stored name is kept) and `updated_at` is refreshed (id, canonical URL and
`created_at` untouched, no row added); if absent, a new `Product` is
inserted; then one `PriceHistory` row is appended iff the price string
parsed, unconditionally — never deduplicated against previous rows. -/
theorem C4_record_observation (db : DB) (url : List Char) (data : ExtractionResult)
    (now : Nat) :
    (∀ p, db.products.find? (fun q => q.base_url == simplify_url url) = some p →
      (saveScrape db url data now).2 = p.id ∧
      (saveScrape db url data now).1.products.length = db.products.length ∧
      ∃ p' ∈ (saveScrape db url data now).1.products,
        p'.id = p.id ∧ p'.base_url = p.base_url ∧ p'.created_at = p.created_at ∧
        p'.updated_at = now ∧ p'.name = pyOrStr data.title p.name) ∧
    (db.products.find? (fun q => q.base_url == simplify_url url) = none →
      (saveScrape db url data now).2 = db.nextProductId ∧
      (saveScrape db url data now).1.products = db.products ++
        [⟨db.nextProductId, pyOrStr data.title "Unknown Product".data,
          simplify_url url, now, now⟩]) ∧
    ((saveScrape db url data now).1.history = db.history ++
      (match parse_price data.price with
       | some v => [⟨db.nextHistoryId, (saveScrape db url data now).2,
                     detect_store_name url, v, now⟩]
       | none => [])) ∧
    (∀ t : Option (List Char), ∀ nm : List Char, truthy t = false → pyOrStr t nm = nm) ∧
    (∀ s : List Char, ∀ nm : List Char, s ≠ [] → pyOrStr (some s) nm = s) := by
  refine ⟨?_, ?_, ?_, ?_, ?_⟩
  · intro p hp
    simp only [saveScrape, hp]
    refine ⟨trivial, ?_, ?_⟩
    · rw [addPrice_products, List.length_map]
    · refine ⟨{ p with name := pyOrStr data.title p.name, updated_at := now },
        ?_, rfl, rfl, rfl, rfl, rfl⟩
      rw [addPrice_products]
      exact List.mem_map.mpr ⟨p, List.mem_of_find?_eq_some hp, by simp⟩
  · intro hp
    simp only [saveScrape, hp]
    exact ⟨trivial, by rw [addPrice_products]⟩
  · cases hf : db.products.find? (fun q => q.base_url == simplify_url url) with
    | some p =>
      simp only [saveScrape, hf]
      rw [addPrice_history]
    | none =>
      simp only [saveScrape, hf]
      rw [addPrice_history]
  · intro t nm ht
    match t with
    | none => rfl
    | some s =>
      have hse : s.isEmpty = true := by simpa [truthy] using ht
      simp [pyOrStr, hse]
  · intro s nm hs
    simp [pyOrStr, hs]

/-- Witness for C4: updating an existing row returns its id; inserting into
an empty database returns the fresh auto-increment id. -/
theorem C4_witness :
    (saveScrape ⟨[⟨7, "Old".data, "https://www.amazon.com/dp/B1".data, 0, 0⟩], [], 8, 3⟩
        "https://www.amazon.com/dp/B1?tag=x".data ⟨some "New".data, none, none⟩ 5).2 = 7 ∧
    (saveScrape ⟨[], [], 1, 1⟩ "https://www.amazon.com/dp/B2".data
        ⟨none, some "$9.99".data, none⟩ 5).2 = 1 := by
  constructor
  · exact ((C4_record_observation
      ⟨[⟨7, "Old".data, "https://www.amazon.com/dp/B1".data, 0, 0⟩], [], 8, 3⟩
      "https://www.amazon.com/dp/B1?tag=x".data ⟨some "New".data, none, none⟩ 5).1
      ⟨7, "Old".data, "https://www.amazon.com/dp/B1".data, 0, 0⟩ (by decide)).1
  · exact ((C4_record_observation ⟨[], [], 1, 1⟩ "https://www.amazon.com/dp/B2".data
      ⟨none, some "$9.99".data, none⟩ 5).2.1 (by decide)).1

/-! ### Claim C1 -/

/-- C1: two successful scrape-and-persists of URLs with the same canonical
URL leave exactly one `Product` row for that canonical URL in a well-formed
database (never a duplicate), both report the same product id, and exactly
one `PriceHistory` row is appended per scrape whose price string parsed,
every appended row referencing that product. -/
theorem C1_one_product_per_canonical_url (db : DB) (u1 u2 : List Char)
    (d1 d2 : ExtractionResult) (t1 t2 : Nat) (hwf : DB.wf db)
    (hcanon : simplify_url u1 = simplify_url u2)
    (s1 s2 : Store) (hs1 : get_scraper_function u1 = some s1)
    (hs2 : get_scraper_function u2 = some s2)
    (hu1 : usable d1 = true) (hu2 : usable d2 = true) :
    ∀ r1 db1 r2 db2,
      scrape_product db u1 d1 t1 = (r1, db1) →
      scrape_product db1 u2 d2 t2 = (r2, db2) →
      (db2.products.filter (fun p => p.base_url == simplify_url u1)).length = 1 ∧
      DB.wf db2 ∧
      ∃ pid, r1 = .ok pid ∧ r2 = .ok pid ∧
        db2.history.length = db.history.length +
          (if (parse_price d1.price).isSome then 1 else 0) +
          (if (parse_price d2.price).isSome then 1 else 0) ∧
        db2.history.take db.history.length = db.history ∧
        ∀ row ∈ db2.history.drop db.history.length, row.product_id = pid := by
  intro r1 db1 r2 db2 h1 h2
  simp only [scrape_product, hs1, hu1, if_true] at h1
  simp only [scrape_product, hs2, hu2, if_true] at h2
  obtain ⟨rfl, rfl⟩ := Prod.mk.injEq _ _ _ _ |>.mp h1
  obtain ⟨rfl, rfl⟩ := Prod.mk.injEq _ _ _ _ |>.mp h2
  obtain ⟨hwf1, hcnt1, ⟨p1, hp1mem, hp1id, hp1burl⟩, hhist1⟩ :=
    saveScrape_main db u1 d1 t1 hwf
  obtain ⟨hwf2, hcnt2, ⟨p2, hp2mem, hp2id, hp2burl⟩, hhist2⟩ :=
    saveScrape_main (saveScrape db u1 d1 t1).1 u2 d2 t2 hwf1
  have hpid2 : (saveScrape (saveScrape db u1 d1 t1).1 u2 d2 t2).2 = p1.id :=
    saveScrape_pid_of_mem _ u2 d2 t2 hwf1 p1 hp1mem (hp1burl.trans (by rw [hcanon]))
  refine ⟨?_, hwf2, p1.id, ?_, ?_, ?_, ?_, ?_⟩
  · rw [hcanon]
    exact hcnt2
  · rw [hp1id]
  · rw [hpid2]
  · rw [hhist2, hhist1]
    cases hq1 : parse_price d1.price <;> cases hq2 : parse_price d2.price <;>
      simp [List.length_append]
  · rw [hhist2, hhist1, List.append_assoc, take_len_append]
  · intro row hrow
    rw [hhist2, hhist1, List.append_assoc, drop_len_append] at hrow
    rw [List.mem_append] at hrow
    rcases hrow with hrow | hrow
    · cases hq1 : parse_price d1.price
      · rw [hq1] at hrow
        simp at hrow
      · rw [hq1] at hrow
        rw [List.mem_singleton] at hrow
        subst hrow
        exact hp1id.symm
    · cases hq2 : parse_price d2.price
      · rw [hq2] at hrow
        simp at hrow
      · rw [hq2] at hrow
        rw [List.mem_singleton] at hrow
        subst hrow
        exact hpid2

/-- Witness for C1: the end-to-end double-scrape scenario of the spec, on the
two differently-parameterized Amazon URLs of the same product. -/
theorem C1_witness :
    ((scrape_product (scrape_product ⟨[], [], 1, 1⟩
        "https://www.amazon.com/dp/B07RJ18VMF?tracking=xyz".data
        ⟨some "CeraVe".data, some "$14.98".data, none⟩ 10).2
        "https://www.amazon.com/dp/B07RJ18VMF".data
        ⟨some "CeraVe".data, some "$15.50".data, none⟩ 20).2.products.filter
      (fun p => p.base_url ==
        simplify_url "https://www.amazon.com/dp/B07RJ18VMF?tracking=xyz".data)).length = 1 := by
  refine ((C1_one_product_per_canonical_url ⟨[], [], 1, 1⟩
    "https://www.amazon.com/dp/B07RJ18VMF?tracking=xyz".data
    "https://www.amazon.com/dp/B07RJ18VMF".data
    ⟨some "CeraVe".data, some "$14.98".data, none⟩
    ⟨some "CeraVe".data, some "$15.50".data, none⟩ 10 20
    ⟨List.Pairwise.nil, List.Pairwise.nil, by simp⟩ (by decide) .amazon .amazon
    (by decide) (by decide) (by decide) (by decide)) _ _ _ _ rfl rfl).1

/-! ### Claims C5 and C8: chain lemmas -/

theorem runTextChain_congr (p q : PageModel) : ∀ sels : List (List Char),
    (∀ s ∈ sels, p s = q s) → runTextChain p sels = runTextChain q sels
  | [], _ => rfl
  | s :: rest, h => by
    have hs := h s (List.mem_cons_self s rest)
    simp only [runTextChain, hs]
    cases q s with
    | found e => rfl
    | absent => exact runTextChain_congr p q rest (fun x hx => h x (List.mem_cons_of_mem _ hx))
    | raises => rfl

theorem runAmazonImageChain_congr (p q : PageModel) : ∀ sels : List (List Char),
    (∀ s ∈ sels, p s = q s) → runAmazonImageChain p sels = runAmazonImageChain q sels
  | [], _ => rfl
  | s :: rest, h => by
    have hs := h s (List.mem_cons_self s rest)
    have ih := runAmazonImageChain_congr p q rest (fun x hx => h x (List.mem_cons_of_mem _ hx))
    simp only [runAmazonImageChain, hs]
    cases q s with
    | found e => rw [ih]
    | absent => exact ih
    | raises => rfl

theorem runMlImageChain_congr (p q : PageModel) : ∀ sels : List (List Char),
    (∀ s ∈ sels, p s = q s) → runMlImageChain p sels = runMlImageChain q sels
  | [], _ => rfl
  | s :: rest, h => by
    have hs := h s (List.mem_cons_self s rest)
    have ih := runMlImageChain_congr p q rest (fun x hx => h x (List.mem_cons_of_mem _ hx))
    simp only [runMlImageChain, hs]
    cases q s with
    | found e => rw [ih]
    | absent => exact ih
    | raises => rfl

theorem runMlPriceChain_congr (p q : PageModel) (hc : p mlCurrencySel = q mlCurrencySel) :
    ∀ sels : List (List Char),
    (∀ s ∈ sels, p s = q s) → runMlPriceChain p sels = runMlPriceChain q sels
  | [], _ => rfl
  | s :: rest, h => by
    have hs := h s (List.mem_cons_self s rest)
    have ih := runMlPriceChain_congr p q hc rest (fun x hx => h x (List.mem_cons_of_mem _ hx))
    by_cases hmeta : startsWithL "meta".data s = true
    · simp only [runMlPriceChain, hmeta, if_true, hs, hc]
      cases q s with
      | found e => rw [ih]
      | absent => exact ih
      | raises => rfl
    · simp only [runMlPriceChain, hmeta, Bool.false_eq_true, if_false, hs, hc]
      cases q s with
      | found e => rfl
      | absent => exact ih
      | raises => rfl

theorem runTextChain_raises (page : PageModel) (s : List Char) (rest : List (List Char))
    (h : page s = .raises) : runTextChain page (s :: rest) = none := by
  simp [runTextChain, h]

theorem runAmazonImageChain_raises (page : PageModel) (s : List Char)
    (rest : List (List Char)) (h : page s = .raises) :
    runAmazonImageChain page (s :: rest) = none := by
  simp [runAmazonImageChain, h]

theorem runMlPriceChain_raises (page : PageModel) (s : List Char)
    (rest : List (List Char)) (h : page s = .raises) :
    runMlPriceChain page (s :: rest) = none := by
  by_cases hmeta : startsWithL "meta".data s = true
  · simp [runMlPriceChain, hmeta, h]
  · simp [runMlPriceChain, hmeta, h]

theorem runMlImageChain_raises (page : PageModel) (s : List Char)
    (rest : List (List Char)) (h : page s = .raises) :
    runMlImageChain page (s :: rest) = none := by
  simp [runMlImageChain, h]

/-! ### Claim C5 -/

/-- C5 counterexample: on a page whose first title selector raises while the
second title selector matches, the code leaves the title empty — the chain
does not advance to the next candidate after an exception, contradicting the
claim (whose semantics, `runTextChainSpec`, would return the fallback
title). -/
theorem C5_counterexample :
    c5Page "#productTitle".data = .raises ∧
    c5Page "h1#title".data = .found ⟨"Fallback Title".data, []⟩ ∧
    (extract_amazon c5Page).title = none ∧
    runTextChainSpec c5Page amazon_title_selectors = some "Fallback Title".data := by
  refine ⟨by decide, by decide, by decide, by decide⟩

/-- C5 amended: each field's chain runs in isolation — a field's result
depends only on the page's answers for that field's own selectors (for the
MercadoLibre price, also the currency-symbol selector) — but an exception
while testing a selector aborts that entire field's chain, yielding no value
for the field, instead of advancing to the next candidate. -/
theorem C5_field_isolation_and_abort :
    (∀ p q : PageModel, (∀ s ∈ amazon_title_selectors, p s = q s) →
      (extract_amazon p).title = (extract_amazon q).title) ∧
    (∀ p q : PageModel, (∀ s ∈ amazon_price_selectors, p s = q s) →
      (extract_amazon p).price = (extract_amazon q).price) ∧
    (∀ p q : PageModel, (∀ s ∈ amazon_image_selectors, p s = q s) →
      (extract_amazon p).image_url = (extract_amazon q).image_url) ∧
    (∀ p q : PageModel, (∀ s ∈ ml_title_selectors, p s = q s) →
      (extract_ml p).title = (extract_ml q).title) ∧
    (∀ p q : PageModel, p mlCurrencySel = q mlCurrencySel →
      (∀ s ∈ ml_price_selectors, p s = q s) →
      (extract_ml p).price = (extract_ml q).price) ∧
    (∀ p q : PageModel, (∀ s ∈ ml_image_selectors, p s = q s) →
      (extract_ml p).image_url = (extract_ml q).image_url) ∧
    (∀ (page : PageModel) s rest, page s = .raises →
      runTextChain page (s :: rest) = none) ∧
    (∀ (page : PageModel) s rest, page s = .raises →
      runAmazonImageChain page (s :: rest) = none) ∧
    (∀ (page : PageModel) s rest, page s = .raises →
      runMlPriceChain page (s :: rest) = none) ∧
    (∀ (page : PageModel) s rest, page s = .raises →
      runMlImageChain page (s :: rest) = none) := by
  refine ⟨fun p q h => runTextChain_congr p q _ h,
    fun p q h => runTextChain_congr p q _ h,
    fun p q h => runAmazonImageChain_congr p q _ h,
    fun p q h => runTextChain_congr p q _ h,
    fun p q hc h => runMlPriceChain_congr p q hc _ h,
    fun p q h => runMlImageChain_congr p q _ h,
    runTextChain_raises, runAmazonImageChain_raises,
    runMlPriceChain_raises, runMlImageChain_raises⟩

/-- Witness for the amended C5: a page whose price selector raises still
yields the same title as the page it agrees with on the title selectors, and
a raising selector aborts its own chain. -/
theorem C5_witness :
    (extract_amazon c5PageB).title = (extract_amazon c5Page).title ∧
    runTextChain c5Page ("#productTitle".data :: ["h1#title".data]) = none :=
  ⟨C5_field_isolation_and_abort.1 c5PageB c5Page (by decide),
   C5_field_isolation_and_abort.2.2.2.2.2.2.1 c5Page "#productTitle".data
     ["h1#title".data] (by decide)⟩

/-! ### Claim C8 -/

/-- C8 counterexample: on a page whose title extracts but whose first price
selector raises, the scrape function returns a structured result that is not
all-empty — an extraction-stage exception is not converted into an all-empty
`ExtractionResult` (only the affected field stays empty). -/
theorem C8_counterexample :
    c8Page "span.a-price.aok-align-center.reinventPricePriceToPayMargin.priceToPay span.a-offscreen".data =
      .raises ∧
    scrape_amazon_product (.ok c8Page) = ⟨some "CeraVe Cleanser".data, none, none⟩ ∧
    scrape_amazon_product (.ok c8Page) ≠ emptyResult := by
  refine ⟨by decide, by decide, by decide⟩

/-- C8 amended: a render/navigation timeout or navigation-stage exception
yields the all-empty result in both per-store scrape functions (which are
total functions of the render outcome — a structured result on every exit
path); an exception inside one field's chain empties only that field. -/
theorem C8_render_failure_all_empty :
    scrape_amazon_product .timeout = emptyResult ∧
    scrape_amazon_product .failed = emptyResult ∧
    scrape_mercadolibre .timeout = emptyResult ∧
    scrape_mercadolibre .failed = emptyResult ∧
    (∀ (page : PageModel) s rest, page s = .raises →
      runTextChain page (s :: rest) = none ∧ runMlImageChain page (s :: rest) = none) := by
  refine ⟨rfl, rfl, rfl, rfl, fun page s rest h => ⟨?_, ?_⟩⟩
  · simp [runTextChain, h]
  · simp [runMlImageChain, h]

/-- Witness for the amended C8 at the concrete raising page. -/
theorem C8_witness :
    runTextChain c8Page
      ("span.a-price.aok-align-center.reinventPricePriceToPayMargin.priceToPay span.a-offscreen".data ::
        ["span.a-price span.a-offscreen".data]) = none ∧
    runMlImageChain c8Page
      ("span.a-price.aok-align-center.reinventPricePriceToPayMargin.priceToPay span.a-offscreen".data ::
        []) = none :=
  C8_render_failure_all_empty.2.2.2.2 c8Page _ _ (by decide)

end Scraper